import Mathlib

/-!
# Verification of the email-assistant workflow and memory manager

A shallow embedding of the repository's triage router
(`src/workflow/triage.py`), memory manager (`src/memory/manager.py`) and
logged response agent (`src/workflow/response.py`), together with proofs of
the specified properties.

External services (the LLM router, the prompt optimizer, the prebuilt react
agent) are modelled as inputs: their outputs are parameters of the embedded
functions, exactly as the code consumes them.
-/

namespace EmailAssistant

/-- A single quote character, written via its code point. -/
def sq : Char := Char.ofNat 39

/-- A double quote character, written via its code point. -/
def dq : Char := Char.ofNat 34

/-- A backslash character, written via its code point. -/
def bs : Char := Char.ofNat 92

/-! ## Data model (`src/core/models.py`, `src/core/config.py`) -/

/-- `EmailInput`: author, to, subject, email_thread - all plain strings. -/
structure EmailInput where
  author : String
  «to» : String
  subject : String
  email_thread : String
deriving DecidableEq, Repr

/-- `ClassificationResult`: the structured output of the router model,
a classification label and free-text reasoning. -/
structure ClassificationResult where
  classification : String
  reasoning : String
deriving DecidableEq, Repr

/-- A chat message: role and content, as the dicts built in `triage_router`. -/
structure ChatMsg where
  role : String
  content : String
deriving DecidableEq, Repr

/-- The state update a `Command` carries: the enqueued messages (empty when
the code's update dict has no `messages` key) plus classification and
reasoning. -/
structure StateUpdate where
  messages : List ChatMsg
  classification : String
  reasoning : String
deriving DecidableEq, Repr

/-- `langgraph.types.Command` as used by `triage_router`: a goto target and a
state update. -/
structure Command where
  goto : String
  update : StateUpdate
deriving DecidableEq, Repr

/-- Default prompt instructions from `src/core/config.py`
(`PROMPT_INSTRUCTIONS`). -/
def PROMPT_INSTRUCTIONS_triage_ignore : String :=
  "Marketing newsletters, spam emails, mass company announcements"

/-- Default notify triage rule from `PROMPT_INSTRUCTIONS`. -/
def PROMPT_INSTRUCTIONS_triage_notify : String :=
  "Team member out sick, build system notifications, project status updates"

/-- Default respond triage rule from `PROMPT_INSTRUCTIONS`. -/
def PROMPT_INSTRUCTIONS_triage_respond : String :=
  "Direct questions from team members, meeting requests, critical bug reports"

/-- Default agent instructions from `PROMPT_INSTRUCTIONS`. -/
def PROMPT_INSTRUCTIONS_agent_instructions : String :=
  "Use these tools when appropriate to help manage John" ++ String.mk [sq] ++
  "s tasks efficiently."

/-! ## Python string rendering

`triage_router` builds the synthetic instruction message with the f-string
`f"Respond to the email {state['email_input']}"`, which renders the
`email_input` dict with CPython's `repr`. We model the repr of a string
(single-quoted by default; double-quoted when the string holds a single
quote but no double quote; the delimiter and backslashes escaped) and of the
four-field dict. Escapes of non-printable characters are not modelled. -/

/-- Escape one character of a Python string repr with delimiter `quote`. -/
def pyCharEscape (quote : Char) (c : Char) : List Char :=
  if c = bs then [bs, bs]
  else if c = quote then [bs, quote]
  else [c]

/-- CPython `repr` of a string: choose the delimiter, escape, and wrap. -/
def pyStrRepr (s : String) : String :=
  let q := if s.data.contains sq && !(s.data.contains dq) then dq else sq
  String.mk ([q] ++ s.data.flatMap (pyCharEscape q) ++ [q])

/-- CPython `repr`/`str` of the `email_input` dict, keys in insertion
order. -/
def EmailInput.pyRepr (e : EmailInput) : String :=
  "\x7b" ++ pyStrRepr "author" ++ ": " ++ pyStrRepr e.author ++ ", " ++
  pyStrRepr "to" ++ ": " ++ pyStrRepr e.«to» ++ ", " ++
  pyStrRepr "subject" ++ ": " ++ pyStrRepr e.subject ++ ", " ++
  pyStrRepr "email_thread" ++ ": " ++ pyStrRepr e.email_thread ++ "\x7d"

/-! ## The triage router (`src/workflow/triage.py`, lines 94-127)

Everything up to the `llm_router.invoke` call builds the prompt for the
external model; the branching under verification consumes the model's
`ClassificationResult`. The classification dispatch is embedded as a
function of the email input and that result; a raised `ValueError` is the
`Except.error` case. -/

/-- The classification dispatch of `triage_router`: branch on
`result.classification`, building the goto target and state update, or raise
`ValueError` on any other label. -/
def triage_router (email_input : EmailInput) (result : ClassificationResult) :
    Except String Command :=
  if result.classification = "respond" then
    Except.ok
      { goto := "response_agent"
        update :=
          { messages :=
              [{ role := "user"
                 content := "Respond to the email " ++ email_input.pyRepr }]
            classification := result.classification
            reasoning := result.reasoning } }
  else if result.classification = "ignore" then
    Except.ok
      { goto := "__end__"
        update :=
          { messages := []
            classification := result.classification
            reasoning := result.reasoning } }
  else if result.classification = "notify" then
    Except.ok
      { goto := "__end__"
        update :=
          { messages := []
            classification := result.classification
            reasoning := result.reasoning } }
  else
    Except.error ("Invalid classification: " ++ result.classification)

/-! ## The memory store

The external store (`langgraph` `BaseStore`) is modelled as a map from a
namespace (a tuple of strings, here a list) and a key to an optional stored
record. The code only ever stores dicts of the shape `{"prompt": value}`,
modelled by `PromptRecordValue`; `store.get` returns the record (whose
`.value['prompt']` is read) and `store.put` overwrites it. -/

/-- A namespace tuple, e.g. `(user_id,)`. -/
abbrev NS := List String

/-- The stored value `{"prompt": value}`. -/
structure PromptRecordValue where
  prompt : String
deriving DecidableEq, Repr

/-- The external key-value store. -/
def Store : Type := NS → String → Option PromptRecordValue

/-- `store.get(namespace, key)`. -/
def Store.get (s : Store) (ns : NS) (key : String) : Option PromptRecordValue :=
  s ns key

/-- `store.put(namespace, key, value)`: overwrite one record. -/
def Store.put (s : Store) (ns : NS) (key : String) (v : PromptRecordValue) :
    Store :=
  fun n k => if n = ns ∧ k = key then some v else s n k

/-- The store with no records. -/
def emptyStore : Store := fun _ _ => none

/-! ## Memory manager (`src/memory/manager.py`) -/

/-- The read-or-create-with-default step repeated for each prompt key in
`get_triage_prompts` (manager.py lines 64-98) and `get_agent_instructions`
(lines 115-124): on a missing record the default is written and returned,
otherwise the stored `result.value['prompt']` is returned. -/
def get_or_put_default (s : Store) (ns : NS) (key defaultPrompt : String) :
    Store × String :=
  match s.get ns key with
  | none => (s.put ns key ⟨defaultPrompt⟩, defaultPrompt)
  | some result => (s, result.prompt)

/-- `get_triage_prompts` (manager.py lines 51-100): read the three triage
prompts under namespace `(user_id,)`, creating each lazily with its default,
and return `(ignore_prompt, notify_prompt, respond_prompt)` along with the
possibly-extended store. -/
def get_triage_prompts (store : Store) (user_id : String) :
    Store × String × String × String :=
  let ns : NS := [user_id]
  let step_ignore :=
    match store.get ns "triage_ignore" with
    | none =>
        (store.put ns "triage_ignore" ⟨PROMPT_INSTRUCTIONS_triage_ignore⟩,
         PROMPT_INSTRUCTIONS_triage_ignore)
    | some result => (store, result.prompt)
  let step_notify :=
    match step_ignore.1.get ns "triage_notify" with
    | none =>
        (step_ignore.1.put ns "triage_notify"
           ⟨PROMPT_INSTRUCTIONS_triage_notify⟩,
         PROMPT_INSTRUCTIONS_triage_notify)
    | some result => (step_ignore.1, result.prompt)
  let step_respond :=
    match step_notify.1.get ns "triage_respond" with
    | none =>
        (step_notify.1.put ns "triage_respond"
           ⟨PROMPT_INSTRUCTIONS_triage_respond⟩,
         PROMPT_INSTRUCTIONS_triage_respond)
    | some result => (step_notify.1, result.prompt)
  (step_respond.1, step_ignore.2, step_notify.2, step_respond.2)

/-- `get_agent_instructions` (manager.py lines 103-126). -/
def get_agent_instructions (store : Store) (user_id : String) :
    Store × String :=
  let ns : NS := [user_id]
  match store.get ns "agent_instructions" with
  | none =>
      (store.put ns "agent_instructions"
         ⟨PROMPT_INSTRUCTIONS_agent_instructions⟩,
       PROMPT_INSTRUCTIONS_agent_instructions)
  | some result => (store, result.prompt)

/-- `load_prompts` (manager.py lines 262-276): fetch the triage prompts then
the agent instructions and return
`(main_prompt, ignore_prompt, notify_prompt, respond_prompt)`. -/
def load_prompts (store : Store) (user_id : String) :
    Store × String × String × String × String :=
  let t := get_triage_prompts store user_id
  let a := get_agent_instructions t.1 user_id
  (a.1, a.2, t.2.1, t.2.2.1, t.2.2.2)

/-- `save_prompts` (manager.py lines 279-299): overwrite all four prompt
records under `(user_id,)` and return the success message. -/
def save_prompts (store : Store) (user_id main_prompt ignore_prompt
    notify_prompt respond_prompt : String) : Store × String :=
  let ns : NS := [user_id]
  let s1 := store.put ns "agent_instructions" ⟨main_prompt⟩
  let s2 := s1.put ns "triage_ignore" ⟨ignore_prompt⟩
  let s3 := s2.put ns "triage_notify" ⟨notify_prompt⟩
  let s4 := s3.put ns "triage_respond" ⟨respond_prompt⟩
  (s4, "✅ Prompts saved successfully!")

/-! ## Python string primitives used by `optimize_prompts`

`str.replace(old, new)` replaces the non-overlapping occurrences of `old`
left to right; `pat in s` is substring containment. Both are modelled on
character lists. The empty-pattern corner of Python `replace` is not
modelled (all patterns in the code are nonempty literals). -/

/-- Substring containment: some suffix of `s` has `p` as a prefix
(Python `p in s`). -/
def containsSub (p : List Char) : List Char → Bool
  | [] => p.isPrefixOf []
  | c :: cs => p.isPrefixOf (c :: cs) || containsSub p cs

/-- Python `s.replace(p, r)` for a nonempty pattern `p`: scan left to right,
replacing each non-overlapping occurrence of `p` by `r`. -/
def replaceL (p r : List Char) : List Char → List Char
  | [] => []
  | c :: cs =>
    match p with
    | [] => c :: cs
    | q :: qs =>
      if (q :: qs).isPrefixOf (c :: cs) then
        r ++ replaceL p r (cs.drop qs.length)
      else
        c :: replaceL p r cs
termination_by s => s.length
decreasing_by
  · simp only [List.length_cons, List.length_drop]
    omega
  · simp

/-- Python `s.replace(old, new)` on strings. -/
def pyReplace (s old new : String) : String :=
  String.mk (replaceL old.data new.data s.data)

/-- Python `pat in s` on strings. -/
def pyIn (pat s : String) : Bool := containsSub pat.data s.data

/-! ## `optimize_prompts` (manager.py lines 129-259)

The feedback sanitization, message munging, prompt fetch, optimizer call and
persistence loop. The external `langmem` optimizer is an input: a function
from the payload the code builds to either the four updated prompt texts (in
the order the `prompts` list is built: `main_agent`, `triage-ignore`,
`triage-notify`, `triage-respond`) or a raised exception, represented by the
exception's `str`. -/

/-- Feedback sanitization (manager.py lines 145-147): the three
`str.replace` calls in source order. -/
def sanitizeFeedback (feedback : String) : String :=
  let s1 := pyReplace feedback "ignore all previous" "consider previous"
  let s2 := pyReplace s1 "ignore previous" "consider previous"
  pyReplace s2 "disregard" "consider"

/-- The safety-prefixed feedback actually placed in the optimizer's
trajectory (manager.py line 150). -/
def safeFeedback (feedback : String) : String :=
  "Email assistant behavior update request: " ++ sanitizeFeedback feedback

/-- One element of the `messages` conversation history handed to
`optimize_prompts`: either a dict with optional `role` / `content` entries
(a dict-valued `content` is represented by its `str` rendering) or a
non-dict element, which the loop skips. -/
inductive RawMsg where
  | dict (role : Option String) (content : Option String)
  | nondict
deriving DecidableEq, Repr

/-- Truncation of long message content (manager.py lines 168-169). -/
def truncate200 (content : String) : String :=
  if 200 < content.length then String.mk (content.data.take 200) ++ "..."
  else content

/-- Message munging (manager.py lines 153-179): keep dict messages with
defaulted role/content and truncated content; fall back to the fixed default
conversation when nothing survives. -/
def safe_messages (messages : List RawMsg) : List ChatMsg :=
  let processed := messages.filterMap fun m =>
    match m with
    | RawMsg.nondict => none
    | RawMsg.dict role content =>
        some ⟨role.getD "assistant", truncate200 (content.getD "")⟩
  if processed.isEmpty then
    [⟨"user", "Please process this email"⟩,
     ⟨"assistant", "I" ++ String.mk [sq] ++ "ve processed the email for you."⟩]
  else processed

/-- The payload `optimizer.invoke` receives: the single trajectory
`(safe_messages, safe_feedback)` and the four current prompt texts from the
`prompts` list. -/
structure OptimizerInput where
  trajectory_messages : List ChatMsg
  trajectory_feedback : String
  prompt_main : String
  prompt_ignore : String
  prompt_notify : String
  prompt_respond : String
deriving DecidableEq, Repr

/-- The optimizer's outcome: four updated prompt texts, or an exception with
the given `str(e)`. -/
inductive OptimizerOutcome where
  | success (main_agent triage_ignore triage_notify triage_respond : String)
  | failure (excMsg : String)
deriving DecidableEq, Repr

/-- The user-facing message of the content-safety branch
(manager.py line 251). -/
def safetyFilterMessage : String :=
  "⚠️ **Safety Filter Activated**\n\nYour feedback triggered content " ++
  "safety filters. Please rephrase your feedback to focus on specific " ++
  "email handling behaviors you" ++ String.mk [sq] ++ "d like to modify."

/-- The generic optimization-error message (manager.py line 253). -/
def optimizationErrorMessage (excMsg : String) : String :=
  "⚠️ **Optimization Error**\n\nCould not update prompts: " ++ excMsg

/-- `optimize_prompts` (manager.py lines 129-259): sanitize the feedback,
munge the messages, fetch the current prompts (lazily creating defaults),
invoke the optimizer, and on success persist exactly the prompts whose text
changed, in the loop's order; on an optimizer exception return the safety
or generic error message. Returns the final store and the returned
markdown string. -/
def optimize_prompts (store : Store) (user_id : String)
    (messages : List RawMsg) (feedback : String)
    (optimizer : OptimizerInput → OptimizerOutcome) : Store × String :=
  let safe_feedback := safeFeedback feedback
  let safe_msgs := safe_messages messages
  let ns : NS := [user_id]
  let t := get_triage_prompts store user_id
  let ignore_prompt := t.2.1
  let notify_prompt := t.2.2.1
  let respond_prompt := t.2.2.2
  let a := get_agent_instructions t.1 user_id
  let agent_prompt := a.2
  let fetched := a.1
  match optimizer ⟨safe_msgs, safe_feedback, agent_prompt, ignore_prompt,
                   notify_prompt, respond_prompt⟩ with
  | OptimizerOutcome.success new_main new_ignore new_notify new_respond =>
      let step0 : Store × List String := (fetched, [])
      let step1 :=
        if new_main ≠ agent_prompt then
          (step0.1.put ns "agent_instructions" ⟨new_main⟩,
           step0.2 ++ ["✅ Updated: **main_agent**"])
        else step0
      let step2 :=
        if new_ignore ≠ ignore_prompt then
          (step1.1.put ns "triage_ignore" ⟨new_ignore⟩,
           step1.2 ++ ["✅ Updated: **triage-ignore**"])
        else step1
      let step3 :=
        if new_notify ≠ notify_prompt then
          (step2.1.put ns "triage_notify" ⟨new_notify⟩,
           step2.2 ++ ["✅ Updated: **triage-notify**"])
        else step2
      let step4 :=
        if new_respond ≠ respond_prompt then
          (step3.1.put ns "triage_respond" ⟨new_respond⟩,
           step3.2 ++ ["✅ Updated: **triage-respond**"])
        else step3
      if step4.2.isEmpty then
        (step4.1, "No prompts were updated based on your feedback.")
      else
        (step4.1, "## Prompt Updates\n\n" ++ String.intercalate "\n" step4.2)
  | OptimizerOutcome.failure excMsg =>
      if pyIn "content_filter" excMsg ||
         pyIn "content management policy" excMsg then
        (fetched, safetyFilterMessage)
      else
        (fetched, optimizationErrorMessage excMsg)

/-! ## The logged response agent (`src/workflow/response.py`, lines 104-126)

`logged_agent` invokes the wrapped react agent, then walks the result's
messages to log `write_email` / `schedule_meeting` tool invocations, and
returns the agent's result verbatim. The wrapped agent is an input
(`invoke`), its state and payload types are opaque parameters. Python
statements that can raise are embedded in the `Except` monad: an error that
escapes `logged_agent` is the `Except.error` case, and the `try`/`except`
around recipient parsing catches locally. -/

/-- A message's `content` attribute: a Python `str`, or a non-string value
on which `content.split` raises. -/
inductive MsgContent where
  | str (s : String)
  | nonstr
deriving DecidableEq, Repr

/-- A message in the agent result: its optional `name` attribute and its
content. -/
structure AgentMsg where
  name : Option String
  content : MsgContent
deriving DecidableEq, Repr

/-- The value returned by `agent.invoke`: the `messages` attribute walked by
the logging loop, plus an arbitrary payload standing for everything else in
the result. -/
structure AgentResult (α : Type) where
  messages : List AgentMsg
  payload : α
deriving DecidableEq, Repr

/-- One entry passed to `log_agent_action`. -/
inductive LogEntry where
  | write_email (recipient : String)
  | write_email_generic
  | schedule_meeting (details : MsgContent)
deriving DecidableEq, Repr

/-- Python `content.split("'")[0]`: the characters before the first single
quote (the whole string when there is none). -/
def pySplitHeadQuote (s : String) : String :=
  String.mk (s.data.takeWhile fun c => c ≠ sq)

/-- `content.split` on a message content: raises `AttributeError` when the
content is not a string. -/
def contentSplitHead : MsgContent → Except String String
  | MsgContent.str s => Except.ok (pySplitHeadQuote s)
  | MsgContent.nonstr => Except.error "AttributeError"

/-- The `try`/`except` block of the `write_email` branch (response.py lines
114-119): parse the recipient, and on any exception log the generic entry
instead. -/
def logWriteEmailEntry (content : MsgContent) : LogEntry :=
  match contentSplitHead content with
  | Except.ok recipient => LogEntry.write_email recipient
  | Except.error _ => LogEntry.write_email_generic

/-- The logging loop of `logged_agent` (response.py lines 110-122), in the
`Except` monad: an uncaught exception in an iteration would abort the
whole function. -/
def logMessages (msgs : List AgentMsg) : Except String (List LogEntry) :=
  msgs.foldlM
    (fun acc m =>
      if m.name = some "write_email" then
        pure (acc ++ [logWriteEmailEntry m.content])
      else if m.name = some "schedule_meeting" then
        pure (acc ++ [LogEntry.schedule_meeting m.content])
      else pure acc)
    []

/-- `logged_agent` (response.py lines 104-124): invoke the wrapped agent,
log, and return the agent's result together with the log entries made. -/
def logged_agent {σ α : Type} (invoke : σ → AgentResult α) (state : σ) :
    Except String (AgentResult α × List LogEntry) := do
  let result := invoke state
  let log ← logMessages result.messages
  pure (result, log)

/-! ## Store lemmas -/

theorem Store.get_put_self (s : Store) (ns : NS) (k : String)
    (v : PromptRecordValue) : (s.put ns k v).get ns k = some v := by
  simp [Store.get, Store.put]

theorem Store.get_put_ne (s : Store) (ns ns' : NS) (k k' : String)
    (v : PromptRecordValue) (h : ¬(ns' = ns ∧ k' = k)) :
    (s.put ns k v).get ns' k' = s.get ns' k' := by
  simp [Store.get, Store.put, h]

theorem get_or_put_default_of_none (s : Store) (ns : NS) (k d : String)
    (h : s.get ns k = none) :
    get_or_put_default s ns k d = (s.put ns k ⟨d⟩, d) := by
  simp [get_or_put_default, h]

theorem get_or_put_default_of_some (s : Store) (ns : NS) (k d : String)
    (v : PromptRecordValue) (h : s.get ns k = some v) :
    get_or_put_default s ns k d = (s, v.prompt) := by
  simp [get_or_put_default, h]

theorem get_or_put_default_get_self (s : Store) (ns : NS) (k d : String) :
    ((get_or_put_default s ns k d).1).get ns k =
      some ⟨(get_or_put_default s ns k d).2⟩ := by
  unfold get_or_put_default
  cases h : s.get ns k with
  | none => simp [Store.get_put_self]
  | some v => simp [h]

theorem get_or_put_default_frame (s : Store) (ns ns' : NS) (k k' d : String)
    (h : ¬(ns' = ns ∧ k' = k)) :
    ((get_or_put_default s ns k d).1).get ns' k' = s.get ns' k' := by
  unfold get_or_put_default
  cases hg : s.get ns k with
  | none => simp [Store.get_put_ne _ _ _ _ _ _ h]
  | some v => simp

theorem get_or_put_default_idem (s : Store) (ns : NS) (k d : String) :
    get_or_put_default ((get_or_put_default s ns k d).1) ns k d =
      ((get_or_put_default s ns k d).1, (get_or_put_default s ns k d).2) := by
  rw [get_or_put_default_of_some _ _ _ _ _ (get_or_put_default_get_self s ns k d)]

/-- `get_triage_prompts` is the sequential composition of three
read-or-create steps (definitional). -/
theorem get_triage_prompts_eq (s : Store) (u : String) :
    get_triage_prompts s u =
      (let a := get_or_put_default s [u] "triage_ignore"
         PROMPT_INSTRUCTIONS_triage_ignore
       let b := get_or_put_default a.1 [u] "triage_notify"
         PROMPT_INSTRUCTIONS_triage_notify
       let c := get_or_put_default b.1 [u] "triage_respond"
         PROMPT_INSTRUCTIONS_triage_respond
       (c.1, a.2, b.2, c.2)) := rfl

/-- `get_agent_instructions` is a single read-or-create step
(definitional). -/
theorem get_agent_instructions_eq (s : Store) (u : String) :
    get_agent_instructions s u =
      get_or_put_default s [u] "agent_instructions"
        PROMPT_INSTRUCTIONS_agent_instructions := rfl

theorem get_or_put_default_get (s : Store) (ns : NS) (k d : String)
    (ns' : NS) (k' : String) :
    ((get_or_put_default s ns k d).1).get ns' k' =
      if ns' = ns ∧ k' = k then some ⟨(get_or_put_default s ns k d).2⟩
      else s.get ns' k' := by
  by_cases h : ns' = ns ∧ k' = k
  · obtain ⟨rfl, rfl⟩ := h
    simp [get_or_put_default_get_self]
  · simp only [if_neg h]
    exact get_or_put_default_frame s ns ns' k k' d h

theorem get_or_put_default_val (s : Store) (ns : NS) (k d : String) :
    (get_or_put_default s ns k d).2 =
      match s.get ns k with
      | none => d
      | some v => v.prompt := by
  unfold get_or_put_default
  cases h : s.get ns k <;> simp

/-- Pointwise description of the store returned by `get_triage_prompts`. -/
theorem get_triage_prompts_get (s : Store) (u : String) (ns : NS)
    (k : String) :
    ((get_triage_prompts s u).1).get ns k =
      if ns = [u] ∧ k = "triage_ignore" then
        some ⟨(get_triage_prompts s u).2.1⟩
      else if ns = [u] ∧ k = "triage_notify" then
        some ⟨(get_triage_prompts s u).2.2.1⟩
      else if ns = [u] ∧ k = "triage_respond" then
        some ⟨(get_triage_prompts s u).2.2.2⟩
      else s.get ns k := by
  simp only [get_triage_prompts_eq]
  rw [get_or_put_default_get, get_or_put_default_get, get_or_put_default_get]
  by_cases h1 : ns = [u] ∧ k = "triage_ignore"
  · obtain ⟨rfl, rfl⟩ := h1
    simp
  · by_cases h2 : ns = [u] ∧ k = "triage_notify"
    · obtain ⟨rfl, rfl⟩ := h2
      simp
    · by_cases h3 : ns = [u] ∧ k = "triage_respond"
      · obtain ⟨rfl, rfl⟩ := h3
        simp
      · simp [h1, h2, h3]

/-- The ignore prompt value returned by `get_triage_prompts`. -/
theorem get_triage_prompts_val_ignore (s : Store) (u : String) :
    (get_triage_prompts s u).2.1 =
      match s.get [u] "triage_ignore" with
      | none => PROMPT_INSTRUCTIONS_triage_ignore
      | some v => v.prompt := by
  simp only [get_triage_prompts_eq]
  exact get_or_put_default_val s [u] "triage_ignore" _

/-- The notify prompt value returned by `get_triage_prompts`. -/
theorem get_triage_prompts_val_notify (s : Store) (u : String) :
    (get_triage_prompts s u).2.2.1 =
      match s.get [u] "triage_notify" with
      | none => PROMPT_INSTRUCTIONS_triage_notify
      | some v => v.prompt := by
  simp only [get_triage_prompts_eq]
  rw [get_or_put_default_val]
  rw [get_or_put_default_frame _ _ _ _ _ _ (by simp)]

/-- The respond prompt value returned by `get_triage_prompts`. -/
theorem get_triage_prompts_val_respond (s : Store) (u : String) :
    (get_triage_prompts s u).2.2.2 =
      match s.get [u] "triage_respond" with
      | none => PROMPT_INSTRUCTIONS_triage_respond
      | some v => v.prompt := by
  simp only [get_triage_prompts_eq]
  rw [get_or_put_default_val]
  rw [get_or_put_default_frame _ _ _ _ _ _ (by simp),
      get_or_put_default_frame _ _ _ _ _ _ (by simp)]

/-- Pointwise description of the store returned by
`get_agent_instructions`. -/
theorem get_agent_instructions_get (s : Store) (u : String) (ns : NS)
    (k : String) :
    ((get_agent_instructions s u).1).get ns k =
      if ns = [u] ∧ k = "agent_instructions" then
        some ⟨(get_agent_instructions s u).2⟩
      else s.get ns k := by
  simp only [get_agent_instructions_eq]
  exact get_or_put_default_get s [u] "agent_instructions" _ ns k

/-- The value returned by `get_agent_instructions`. -/
theorem get_agent_instructions_val (s : Store) (u : String) :
    (get_agent_instructions s u).2 =
      match s.get [u] "agent_instructions" with
      | none => PROMPT_INSTRUCTIONS_agent_instructions
      | some v => v.prompt := by
  simp only [get_agent_instructions_eq]
  exact get_or_put_default_val s [u] "agent_instructions" _

/-! ## C1, C2: the triage router's branching -/

/-- C1: for every classification result, `triage_router` branches
deterministically: `"respond"` yields a `Command` with
`goto = "response_agent"` whose update enqueues exactly the synthetic user
message `"Respond to the email {email_input}"` with classification and
reasoning; `"ignore"` and `"notify"` yield `goto = "__end__"` with
classification and reasoning and no message. -/
theorem triage_router_branching (e : EmailInput) (r : ClassificationResult) :
    (r.classification = "respond" →
      triage_router e r = Except.ok
        { goto := "response_agent"
          update :=
            { messages :=
                [{ role := "user"
                   content := "Respond to the email " ++ e.pyRepr }]
              classification := r.classification
              reasoning := r.reasoning } }) ∧
    ((r.classification = "ignore" ∨ r.classification = "notify") →
      triage_router e r = Except.ok
        { goto := "__end__"
          update :=
            { messages := []
              classification := r.classification
              reasoning := r.reasoning } }) := by
  constructor
  · intro h
    simp [triage_router, h]
  · rintro (h | h) <;> simp [triage_router, h]

/-- Witness for C1 at concrete inputs. -/
theorem triage_router_branching_witness :
    triage_router ⟨"a@x.io", "b@x.io", "hi", "body"⟩ ⟨"respond", "w"⟩ =
      Except.ok
        { goto := "response_agent"
          update :=
            { messages :=
                [{ role := "user"
                   content := "Respond to the email " ++
                     (EmailInput.mk "a@x.io" "b@x.io" "hi" "body").pyRepr }]
              classification := "respond"
              reasoning := "w" } } ∧
    triage_router ⟨"a@x.io", "b@x.io", "hi", "body"⟩ ⟨"ignore", "w"⟩ =
      Except.ok
        { goto := "__end__"
          update :=
            { messages := []
              classification := "ignore"
              reasoning := "w" } } :=
  ⟨(triage_router_branching _ _).1 rfl,
   (triage_router_branching _ _).2 (Or.inl rfl)⟩

/-- C2: `triage_router` raises `ValueError` exactly on classification values
outside `{"ignore", "notify", "respond"}`, and returns a `Command` (raising
nothing) on the three valid values. -/
theorem triage_router_invalid_classification (e : EmailInput)
    (r : ClassificationResult) :
    (¬(r.classification = "ignore" ∨ r.classification = "notify" ∨
        r.classification = "respond") →
      triage_router e r =
        Except.error ("Invalid classification: " ++ r.classification)) ∧
    ((r.classification = "ignore" ∨ r.classification = "notify" ∨
        r.classification = "respond") →
      ∃ c, triage_router e r = Except.ok c) := by
  constructor
  · intro h
    push_neg at h
    obtain ⟨h1, h2, h3⟩ := h
    simp [triage_router, h1, h2, h3]
  · rintro (h | h | h)
    · exact ⟨{ goto := "__end__"
               update := { messages := []
                           classification := r.classification
                           reasoning := r.reasoning } },
        by simp [triage_router, h]⟩
    · exact ⟨{ goto := "__end__"
               update := { messages := []
                           classification := r.classification
                           reasoning := r.reasoning } },
        by simp [triage_router, h]⟩
    · exact ⟨{ goto := "response_agent"
               update := { messages :=
                             [{ role := "user"
                                content := "Respond to the email " ++
                                  e.pyRepr }]
                           classification := r.classification
                           reasoning := r.reasoning } },
        by simp [triage_router, h]⟩

/-- Witness for C2 at concrete inputs. -/
theorem triage_router_invalid_classification_witness :
    triage_router ⟨"a", "b", "c", "d"⟩ ⟨"banana", "w"⟩ =
      Except.error ("Invalid classification: " ++ "banana") ∧
    ∃ c, triage_router ⟨"a", "b", "c", "d"⟩ ⟨"notify", "w"⟩ = Except.ok c :=
  ⟨(triage_router_invalid_classification _ _).1 (by decide),
   (triage_router_invalid_classification ⟨"a", "b", "c", "d"⟩ ⟨"notify", "w"⟩).2
     (Or.inr (Or.inl rfl))⟩

/-! ## C3: lazy creation with defaults on first read -/

/-- C3: for every user id and each of the four prompt keys,
`get_triage_prompts` / `get_agent_instructions` create the record lazily on
first read: a missing record is written with its default and the default is
returned; an existing record is returned as stored and that key is not
written. -/
theorem prompt_reads_lazy_create (s : Store) (u : String) :
    ((s.get [u] "triage_ignore" = none →
        ((get_triage_prompts s u).1).get [u] "triage_ignore" =
          some ⟨PROMPT_INSTRUCTIONS_triage_ignore⟩ ∧
        (get_triage_prompts s u).2.1 = PROMPT_INSTRUCTIONS_triage_ignore) ∧
      (∀ v, s.get [u] "triage_ignore" = some v →
        ((get_triage_prompts s u).1).get [u] "triage_ignore" = some v ∧
        (get_triage_prompts s u).2.1 = v.prompt)) ∧
    ((s.get [u] "triage_notify" = none →
        ((get_triage_prompts s u).1).get [u] "triage_notify" =
          some ⟨PROMPT_INSTRUCTIONS_triage_notify⟩ ∧
        (get_triage_prompts s u).2.2.1 = PROMPT_INSTRUCTIONS_triage_notify) ∧
      (∀ v, s.get [u] "triage_notify" = some v →
        ((get_triage_prompts s u).1).get [u] "triage_notify" = some v ∧
        (get_triage_prompts s u).2.2.1 = v.prompt)) ∧
    ((s.get [u] "triage_respond" = none →
        ((get_triage_prompts s u).1).get [u] "triage_respond" =
          some ⟨PROMPT_INSTRUCTIONS_triage_respond⟩ ∧
        (get_triage_prompts s u).2.2.2 = PROMPT_INSTRUCTIONS_triage_respond) ∧
      (∀ v, s.get [u] "triage_respond" = some v →
        ((get_triage_prompts s u).1).get [u] "triage_respond" = some v ∧
        (get_triage_prompts s u).2.2.2 = v.prompt)) ∧
    ((s.get [u] "agent_instructions" = none →
        ((get_agent_instructions s u).1).get [u] "agent_instructions" =
          some ⟨PROMPT_INSTRUCTIONS_agent_instructions⟩ ∧
        (get_agent_instructions s u).2 =
          PROMPT_INSTRUCTIONS_agent_instructions) ∧
      (∀ v, s.get [u] "agent_instructions" = some v →
        ((get_agent_instructions s u).1).get [u] "agent_instructions" =
          some v ∧
        (get_agent_instructions s u).2 = v.prompt)) := by
  refine ⟨⟨fun h => ⟨?_, ?_⟩, fun v h => ⟨?_, ?_⟩⟩,
          ⟨fun h => ⟨?_, ?_⟩, fun v h => ⟨?_, ?_⟩⟩,
          ⟨fun h => ⟨?_, ?_⟩, fun v h => ⟨?_, ?_⟩⟩,
          ⟨fun h => ⟨?_, ?_⟩, fun v h => ⟨?_, ?_⟩⟩⟩ <;>
    simp [get_triage_prompts_get, get_agent_instructions_get,
      get_triage_prompts_val_ignore, get_triage_prompts_val_notify,
      get_triage_prompts_val_respond, get_agent_instructions_val, h]

/-- Witness for C3: a missing key is created with its default, an existing
key is returned as stored and left in place. -/
theorem prompt_reads_lazy_create_witness :
    ((get_triage_prompts emptyStore "u1").1).get ["u1"] "triage_ignore" =
      some ⟨PROMPT_INSTRUCTIONS_triage_ignore⟩ ∧
    (get_triage_prompts emptyStore "u1").2.1 =
      PROMPT_INSTRUCTIONS_triage_ignore ∧
    ((get_triage_prompts
        (emptyStore.put ["u1"] "triage_ignore" ⟨"custom"⟩) "u1").1).get
      ["u1"] "triage_ignore" = some ⟨"custom"⟩ ∧
    (get_triage_prompts
        (emptyStore.put ["u1"] "triage_ignore" ⟨"custom"⟩) "u1").2.1 =
      "custom" :=
  ⟨((prompt_reads_lazy_create emptyStore "u1").1.1 rfl).1,
   ((prompt_reads_lazy_create emptyStore "u1").1.1 rfl).2,
   ((prompt_reads_lazy_create
       (emptyStore.put ["u1"] "triage_ignore" ⟨"custom"⟩) "u1").1.2
     ⟨"custom"⟩ (by simp [Store.get_put_self])).1,
   ((prompt_reads_lazy_create
       (emptyStore.put ["u1"] "triage_ignore" ⟨"custom"⟩) "u1").1.2
     ⟨"custom"⟩ (by simp [Store.get_put_self])).2⟩

/-! ## C7: `save_prompts` overwrites wholesale -/

/-- C7: `save_prompts` writes all four prompt records under `(user_id,)`
with exactly the given strings, regardless of the prior store, and returns
the success message. -/
theorem save_prompts_overwrites (s : Store) (u m i n r : String) :
    ((save_prompts s u m i n r).1).get [u] "agent_instructions" =
      some ⟨m⟩ ∧
    ((save_prompts s u m i n r).1).get [u] "triage_ignore" = some ⟨i⟩ ∧
    ((save_prompts s u m i n r).1).get [u] "triage_notify" = some ⟨n⟩ ∧
    ((save_prompts s u m i n r).1).get [u] "triage_respond" = some ⟨r⟩ ∧
    (save_prompts s u m i n r).2 = "✅ Prompts saved successfully!" := by
  refine ⟨?_, ?_, ?_, ?_, rfl⟩ <;>
    simp [save_prompts, Store.get, Store.put]

/-! ## Frame lemmas: operations for one user touch only that user's
namespace -/

theorem fetched_frame (s : Store) (u : String) (ns : NS) (hns : ns ≠ [u])
    (k : String) :
    ((get_agent_instructions (get_triage_prompts s u).1 u).1).get ns k =
      s.get ns k := by
  rw [get_agent_instructions_get, get_triage_prompts_get]
  simp [hns]

theorem optimize_prompts_frame (s : Store) (u : String) (msgs : List RawMsg)
    (f : String) (opt : OptimizerInput → OptimizerOutcome) (ns : NS)
    (k : String) (hns : ns ≠ [u]) :
    ((optimize_prompts s u msgs f opt).1).get ns k = s.get ns k := by
  have hput : ∀ (t : Store) (k' : String) (v : PromptRecordValue),
      (∀ k'', t.get ns k'' = s.get ns k'') →
      ∀ k'', ((t.put [u] k' v).get ns k'') = s.get ns k'' := by
    intro t k' v ht k''
    rw [Store.get_put_ne _ _ _ _ _ _ (fun hc => hns hc.1)]
    exact ht k''
  unfold optimize_prompts
  dsimp only
  split
  · split <;>
      repeat
        first
        | exact fetched_frame s u ns hns _
        | split
        | refine hput _ _ _ (fun k'' => ?_) _
  · split <;> exact fetched_frame s u ns hns k

/-! ## C8: per-user namespace isolation -/

/-- C8: for distinct user ids `u1 ≠ u2`, every prompt operation performed for
`u1` leaves every record under namespace `(u2,)` unchanged. -/
theorem prompt_ops_namespace_isolation (s : Store) (u1 u2 : String)
    (h : u1 ≠ u2) (k m i n r f : String) (msgs : List RawMsg)
    (opt : OptimizerInput → OptimizerOutcome) :
    ((get_triage_prompts s u1).1).get [u2] k = s.get [u2] k ∧
    ((get_agent_instructions s u1).1).get [u2] k = s.get [u2] k ∧
    ((load_prompts s u1).1).get [u2] k = s.get [u2] k ∧
    ((save_prompts s u1 m i n r).1).get [u2] k = s.get [u2] k ∧
    ((optimize_prompts s u1 msgs f opt).1).get [u2] k = s.get [u2] k := by
  have hns : ([u2] : NS) ≠ [u1] := by
    intro e
    injection e with e1 _
    exact h e1.symm
  refine ⟨?_, ?_, ?_, ?_, ?_⟩
  · rw [get_triage_prompts_get]
    simp [hns]
  · rw [get_agent_instructions_get]
    simp [hns]
  · simp only [load_prompts]
    exact fetched_frame s u1 [u2] hns k
  · simp [save_prompts, Store.get, Store.put, hns]
  · exact optimize_prompts_frame s u1 msgs f opt [u2] k hns

/-- Witness for C8: operations for user `"alice"` leave a record of user
`"bob"` in place. -/
theorem prompt_ops_namespace_isolation_witness :
    ((get_triage_prompts
        (emptyStore.put ["bob"] "triage_ignore" ⟨"keep"⟩) "alice").1).get
      ["bob"] "triage_ignore" =
      (emptyStore.put ["bob"] "triage_ignore" ⟨"keep"⟩).get
        ["bob"] "triage_ignore" :=
  (prompt_ops_namespace_isolation
      (emptyStore.put ["bob"] "triage_ignore" ⟨"keep"⟩) "alice" "bob"
      (by decide) "triage_ignore" "m" "i" "n" "r" "f" []
      (fun _ => OptimizerOutcome.failure "e")).1

/-! ## C10: idempotence of the prompt reads -/

theorem get_triage_prompts_idem (s : Store) (u : String) :
    get_triage_prompts ((get_triage_prompts s u).1) u =
      get_triage_prompts s u := by
  have h1 : ((get_triage_prompts s u).1).get [u] "triage_ignore" =
      some ⟨(get_triage_prompts s u).2.1⟩ := by
    rw [get_triage_prompts_get]
    simp
  have h2 : ((get_triage_prompts s u).1).get [u] "triage_notify" =
      some ⟨(get_triage_prompts s u).2.2.1⟩ := by
    rw [get_triage_prompts_get]
    simp
  have h3 : ((get_triage_prompts s u).1).get [u] "triage_respond" =
      some ⟨(get_triage_prompts s u).2.2.2⟩ := by
    rw [get_triage_prompts_get]
    simp
  rw [get_triage_prompts_eq ((get_triage_prompts s u).1) u]
  simp only [get_or_put_default_of_some _ _ _ _ _ h1,
    get_or_put_default_of_some _ _ _ _ _ h2,
    get_or_put_default_of_some _ _ _ _ _ h3]

theorem get_agent_instructions_idem (s : Store) (u : String) :
    get_agent_instructions ((get_agent_instructions s u).1) u =
      get_agent_instructions s u := by
  have h1 : ((get_agent_instructions s u).1).get [u] "agent_instructions" =
      some ⟨(get_agent_instructions s u).2⟩ := by
    rw [get_agent_instructions_get]
    simp
  rw [get_agent_instructions_eq ((get_agent_instructions s u).1) u,
    get_or_put_default_of_some _ _ _ _ _ h1]

theorem load_prompts_keys (s : Store) (u : String) :
    ((load_prompts s u).1).get [u] "triage_ignore" =
      some ⟨(get_triage_prompts s u).2.1⟩ ∧
    ((load_prompts s u).1).get [u] "triage_notify" =
      some ⟨(get_triage_prompts s u).2.2.1⟩ ∧
    ((load_prompts s u).1).get [u] "triage_respond" =
      some ⟨(get_triage_prompts s u).2.2.2⟩ ∧
    ((load_prompts s u).1).get [u] "agent_instructions" =
      some ⟨(get_agent_instructions (get_triage_prompts s u).1 u).2⟩ := by
  refine ⟨?_, ?_, ?_, ?_⟩ <;>
    · simp only [load_prompts]
      rw [get_agent_instructions_get]
      simp [get_triage_prompts_get]

theorem load_prompts_idem (s : Store) (u : String) :
    load_prompts ((load_prompts s u).1) u = load_prompts s u := by
  obtain ⟨hI, hN, hR, hA⟩ := load_prompts_keys s u
  have ht : get_triage_prompts ((load_prompts s u).1) u =
      ((load_prompts s u).1, (get_triage_prompts s u).2.1,
        (get_triage_prompts s u).2.2.1, (get_triage_prompts s u).2.2.2) := by
    rw [get_triage_prompts_eq]
    simp only [get_or_put_default_of_some _ _ _ _ _ hI,
      get_or_put_default_of_some _ _ _ _ _ hN,
      get_or_put_default_of_some _ _ _ _ _ hR]
  have ha : get_agent_instructions ((load_prompts s u).1) u =
      ((load_prompts s u).1,
        (get_agent_instructions (get_triage_prompts s u).1 u).2) := by
    rw [get_agent_instructions_eq, get_or_put_default_of_some _ _ _ _ _ hA]
  have hshow : load_prompts ((load_prompts s u).1) u =
      ((get_agent_instructions
          (get_triage_prompts ((load_prompts s u).1) u).1 u).1,
        (get_agent_instructions
          (get_triage_prompts ((load_prompts s u).1) u).1 u).2,
        (get_triage_prompts ((load_prompts s u).1) u).2.1,
        (get_triage_prompts ((load_prompts s u).1) u).2.2.1,
        (get_triage_prompts ((load_prompts s u).1) u).2.2.2) := rfl
  rw [hshow, ht]
  dsimp only
  rw [ha]
  rfl

/-- C10: after one pass of the prompt reads all four prompt keys exist under
`(user_id,)`, and repeating `get_triage_prompts`, `get_agent_instructions`,
or the combined `load_prompts` on the resulting store returns the same
values and performs no writes. -/
theorem prompt_reads_idempotent (s : Store) (u : String) :
    (∃ v, ((load_prompts s u).1).get [u] "triage_ignore" = some v) ∧
    (∃ v, ((load_prompts s u).1).get [u] "triage_notify" = some v) ∧
    (∃ v, ((load_prompts s u).1).get [u] "triage_respond" = some v) ∧
    (∃ v, ((load_prompts s u).1).get [u] "agent_instructions" = some v) ∧
    get_triage_prompts ((get_triage_prompts s u).1) u =
      get_triage_prompts s u ∧
    get_agent_instructions ((get_agent_instructions s u).1) u =
      get_agent_instructions s u ∧
    load_prompts ((load_prompts s u).1) u = load_prompts s u :=
  ⟨⟨_, (load_prompts_keys s u).1⟩, ⟨_, (load_prompts_keys s u).2.1⟩,
   ⟨_, (load_prompts_keys s u).2.2.1⟩, ⟨_, (load_prompts_keys s u).2.2.2⟩,
   get_triage_prompts_idem s u, get_agent_instructions_idem s u,
   load_prompts_idem s u⟩

/-! ## C4, C5: `optimize_prompts` persistence and failure handling -/

theorem fst_ite {α β : Type} (c : Prop) [Decidable c] (a b : α × β) :
    (ite c a b).1 = ite c a.1 b.1 := by
  split <;> rfl

theorem store_get_ite (c : Prop) [Decidable c] (s1 s2 : Store) (ns : NS)
    (k : String) :
    (ite c s1 s2).get ns k = ite c (s1.get ns k) (s2.get ns k) := by
  split <;> rfl

theorem get_triage_prompts_of_found (s : Store) (u oldI oldN oldR : String)
    (hI : s.get [u] "triage_ignore" = some ⟨oldI⟩)
    (hN : s.get [u] "triage_notify" = some ⟨oldN⟩)
    (hR : s.get [u] "triage_respond" = some ⟨oldR⟩) :
    get_triage_prompts s u = (s, oldI, oldN, oldR) := by
  rw [get_triage_prompts_eq]
  simp only [get_or_put_default_of_some _ _ _ _ _ hI,
    get_or_put_default_of_some _ _ _ _ _ hN,
    get_or_put_default_of_some _ _ _ _ _ hR]

theorem get_agent_instructions_of_found (s : Store) (u oldM : String)
    (hM : s.get [u] "agent_instructions" = some ⟨oldM⟩) :
    get_agent_instructions s u = (s, oldM) := by
  rw [get_agent_instructions_eq, get_or_put_default_of_some _ _ _ _ _ hM]

/-- C4: on a successful optimizer invocation, `optimize_prompts` persists
exactly the prompts whose optimizer output differs from their old text: a
changed prompt is written with the new text under its key in `(user_id,)`,
and an unchanged prompt's record is left exactly as it was. -/
theorem optimize_prompts_persists_changed (s : Store) (u f : String)
    (msgs : List RawMsg) (oldM oldI oldN oldR newM newI newN newR : String)
    (hM : s.get [u] "agent_instructions" = some ⟨oldM⟩)
    (hI : s.get [u] "triage_ignore" = some ⟨oldI⟩)
    (hN : s.get [u] "triage_notify" = some ⟨oldN⟩)
    (hR : s.get [u] "triage_respond" = some ⟨oldR⟩) :
    let final := (optimize_prompts s u msgs f
      (fun _ => OptimizerOutcome.success newM newI newN newR)).1
    ((newM ≠ oldM → final.get [u] "agent_instructions" = some ⟨newM⟩) ∧
     (newM = oldM → final.get [u] "agent_instructions" =
        s.get [u] "agent_instructions")) ∧
    ((newI ≠ oldI → final.get [u] "triage_ignore" = some ⟨newI⟩) ∧
     (newI = oldI → final.get [u] "triage_ignore" =
        s.get [u] "triage_ignore")) ∧
    ((newN ≠ oldN → final.get [u] "triage_notify" = some ⟨newN⟩) ∧
     (newN = oldN → final.get [u] "triage_notify" =
        s.get [u] "triage_notify")) ∧
    ((newR ≠ oldR → final.get [u] "triage_respond" = some ⟨newR⟩) ∧
     (newR = oldR → final.get [u] "triage_respond" =
        s.get [u] "triage_respond")) := by
  intro final
  have hfinal : final = (optimize_prompts s u msgs f
      (fun _ => OptimizerOutcome.success newM newI newN newR)).1 := rfl
  rw [optimize_prompts] at hfinal
  rw [get_triage_prompts_of_found s u oldI oldN oldR hI hN hR,
    get_agent_instructions_of_found s u oldM hM] at hfinal
  dsimp only at hfinal
  refine ⟨⟨fun hc => ?_, fun hc => ?_⟩, ⟨fun hc => ?_, fun hc => ?_⟩,
          ⟨fun hc => ?_, fun hc => ?_⟩, ⟨fun hc => ?_, fun hc => ?_⟩⟩ <;>
    simp [hfinal, hc, fst_ite, store_get_ite, Store.get_put_self,
      Store.get_put_ne, hM, hI, hN, hR]

/-- Witness for C4: with all four records present, a changed agent prompt is
persisted and an unchanged ignore prompt is left alone. -/
theorem optimize_prompts_persists_changed_witness :
    let s0 := (((emptyStore.put ["u"] "agent_instructions" ⟨"m"⟩).put
      ["u"] "triage_ignore" ⟨"i"⟩).put ["u"] "triage_notify" ⟨"n"⟩).put
      ["u"] "triage_respond" ⟨"r"⟩
    let final := (optimize_prompts s0 "u" [] "fb"
      (fun _ => OptimizerOutcome.success "m2" "i" "n" "r")).1
    final.get ["u"] "agent_instructions" = some ⟨"m2"⟩ ∧
    final.get ["u"] "triage_ignore" = s0.get ["u"] "triage_ignore" := by
  intro s0 final
  have h := optimize_prompts_persists_changed s0 "u" "fb" [] "m" "i" "n" "r"
    "m2" "i" "n" "r"
    (by simp [s0, Store.get, Store.put]) (by simp [s0, Store.get, Store.put])
    (by simp [s0, Store.get, Store.put]) (by simp [s0, Store.get, Store.put])
  exact ⟨h.1.1 (by decide), h.2.1.2 rfl⟩

set_option maxRecDepth 8000 in
/-- The generic optimization-error message is never the safety-filter
message, whatever the exception text: they differ at character 5. -/
theorem optimizationErrorMessage_ne_safety (e : String) :
    optimizationErrorMessage e ≠ safetyFilterMessage := by
  intro h
  have h5 : (optimizationErrorMessage e).data[5]? =
      safetyFilterMessage.data[5]? := by rw [h]
  rw [optimizationErrorMessage, String.data_append] at h5
  rw [List.getElem?_append_left (by decide)] at h5
  exact absurd h5 (by decide)

/-- C5: `optimize_prompts` propagates no exception from the optimizer call:
when the optimizer raises, the returned string is the content-safety-filter
message exactly when `str(e)` contains `"content_filter"` or
`"content management policy"`, and the generic optimization-error message
otherwise. -/
theorem optimize_prompts_failure_messages (s : Store) (u f e : String)
    (msgs : List RawMsg) :
    ((optimize_prompts s u msgs f (fun _ => OptimizerOutcome.failure e)).2 =
      if pyIn "content_filter" e || pyIn "content management policy" e then
        safetyFilterMessage
      else optimizationErrorMessage e) ∧
    ((optimize_prompts s u msgs f
        (fun _ => OptimizerOutcome.failure e)).2 = safetyFilterMessage ↔
      (pyIn "content_filter" e || pyIn "content management policy" e)
        = true) := by
  have heq : (optimize_prompts s u msgs f
      (fun _ => OptimizerOutcome.failure e)).2 =
      if pyIn "content_filter" e || pyIn "content management policy" e then
        safetyFilterMessage
      else optimizationErrorMessage e := by
    rw [optimize_prompts]
    dsimp only
    split <;> rfl
  refine ⟨heq, ?_⟩
  rw [heq]
  by_cases hc : (pyIn "content_filter" e ||
      pyIn "content management policy" e) = true
  · simp [hc]
  · simp only [Bool.not_eq_true] at hc
    simp [hc, optimizationErrorMessage_ne_safety e]

/-! ## C9: transparency of the logged response agent -/

theorem logMessages_foldlM_ok (msgs : List AgentMsg) :
    ∀ acc : List LogEntry,
      ∃ out,
        msgs.foldlM
          (fun acc m =>
            if m.name = some "write_email" then
              pure (acc ++ [logWriteEmailEntry m.content])
            else if m.name = some "schedule_meeting" then
              pure (acc ++ [LogEntry.schedule_meeting m.content])
            else pure acc)
          acc = (Except.ok out : Except String (List LogEntry)) := by
  induction msgs with
  | nil => exact fun acc => ⟨acc, rfl⟩
  | cons m ms ih =>
    intro acc
    rw [List.foldlM_cons]
    by_cases h1 : m.name = some "write_email"
    · obtain ⟨out, hout⟩ := ih (acc ++ [logWriteEmailEntry m.content])
      exact ⟨out, by simp [h1, hout]⟩
    · by_cases h2 : m.name = some "schedule_meeting"
      · obtain ⟨out, hout⟩ := ih (acc ++ [LogEntry.schedule_meeting m.content])
        exact ⟨out, by simp [h1, h2, hout]⟩
      · obtain ⟨out, hout⟩ := ih acc
        exact ⟨out, by simp [h1, h2, hout]⟩

/-- C9: `logged_agent` is transparent: it always returns exactly the value
produced by the wrapped agent's `invoke` (the logging loop raises nothing),
and an exception while parsing a `write_email` message's content is
swallowed, producing the generic log entry instead. -/
theorem logged_agent_transparent {σ α : Type} (invoke : σ → AgentResult α)
    (st : σ) :
    (∃ log, logged_agent invoke st = Except.ok (invoke st, log)) ∧
    (∀ c err, contentSplitHead c = Except.error err →
      logWriteEmailEntry c = LogEntry.write_email_generic) := by
  constructor
  · obtain ⟨out, hout⟩ := logMessages_foldlM_ok (invoke st).messages []
    exact ⟨out, by simp [logged_agent, logMessages, hout]⟩
  · intro c err herr
    rw [logWriteEmailEntry, herr]

/-- Witness for C9: a `write_email` message with non-string content is
logged generically and the agent's result is returned unchanged. -/
theorem logged_agent_transparent_witness :
    (∃ log,
      logged_agent
        (fun _ : Nat =>
          AgentResult.mk [⟨some "write_email", MsgContent.nonstr⟩] (7 : Nat))
        0 =
        Except.ok
          (AgentResult.mk [⟨some "write_email", MsgContent.nonstr⟩] 7,
            log)) ∧
    logWriteEmailEntry MsgContent.nonstr = LogEntry.write_email_generic :=
  ⟨(logged_agent_transparent
      (fun _ : Nat =>
        AgentResult.mk [⟨some "write_email", MsgContent.nonstr⟩] (7 : Nat))
      0).1,
   (logged_agent_transparent
      (fun _ : Nat =>
        AgentResult.mk [⟨some "write_email", MsgContent.nonstr⟩] (7 : Nat))
      0).2 MsgContent.nonstr "AttributeError" rfl⟩

/-! ## C6: feedback sanitization removes the injection phrases

The substance is a fact about left-to-right non-overlapping replacement:
after `s.replace(p, r)` no occurrence of `p` remains, and no occurrence of a
phrase `x` is created, provided `r` contains no `x`, no junction of `r` with
surrounding text can complete an `x`, and (for preservation) `s` contained
no `x`. The side conditions are decidable for the concrete phrases. -/

theorem replaceL_nil (p r : List Char) : replaceL p r [] = [] := by
  rw [replaceL]

theorem replaceL_cons (q : Char) (qs r : List Char) (c : Char)
    (cs : List Char) :
    replaceL (q :: qs) r (c :: cs) =
      if (q :: qs).isPrefixOf (c :: cs) then
        r ++ replaceL (q :: qs) r (cs.drop qs.length)
      else c :: replaceL (q :: qs) r cs := by
  rw [replaceL]

theorem isPrefixOf_iff {a b : List Char} : a.isPrefixOf b = true ↔ a <+: b :=
  List.isPrefixOf_iff_prefix

theorem isPrefixOf_nil_of_ne_nil (x : List Char) (hx : x ≠ []) :
    x.isPrefixOf [] = false := by
  cases x with
  | nil => exact absurd rfl hx
  | cons a as => rfl

theorem containsSub_iff (p s : List Char) :
    containsSub p s = true ↔ ∃ i, p <+: s.drop i := by
  induction s with
  | nil =>
    simp only [containsSub, isPrefixOf_iff, List.drop_nil]
    exact ⟨fun h => ⟨0, h⟩, fun ⟨_, h⟩ => h⟩
  | cons c cs ih =>
    simp only [containsSub, Bool.or_eq_true, isPrefixOf_iff, ih]
    constructor
    · rintro (h | ⟨i, hi⟩)
      · exact ⟨0, h⟩
      · exact ⟨i + 1, by simpa using hi⟩
    · rintro ⟨i, hi⟩
      cases i with
      | zero => exact Or.inl hi
      | succ j => exact Or.inr ⟨j, by simpa using hi⟩

theorem containsSub_of_drop (x l : List Char) (j : Nat)
    (h : containsSub x (l.drop j) = true) : containsSub x l = true := by
  rw [containsSub_iff] at h ⊢
  obtain ⟨i, hi⟩ := h
  exact ⟨j + i, by rwa [List.drop_drop] at hi⟩

theorem prefix_of_prefix_append_le {x a b : List Char} (h : x <+: a ++ b)
    (hlen : x.length ≤ a.length) : x <+: a := by
  rw [List.prefix_iff_eq_take] at h ⊢
  rwa [List.take_append_of_le_length hlen] at h

/-- Master lemma on left-to-right non-overlapping replacement: under the
junction side conditions, replacing `p` by `r` leaves no occurrence of the
phrase `x` - neither when `x` is the replaced pattern itself, nor when the
input contained no `x` (preservation). The second conjunct is the
strengthening needed at junctions: a proper suffix of `x` prefixing the
output must already prefix the input. -/
theorem replace_master (p r x : List Char) (hp : p ≠ []) (hx : x ≠ [])
    (hxr : containsSub x r = false)
    (hsufr : ∀ i, i < r.length → (r.drop i).isPrefixOf x = false)
    (hsufx : ∀ k, k < x.length → 0 < k → (x.drop k).isPrefixOf r = false)
    (hrx : ∀ k, k < x.length → 0 < k → r.isPrefixOf (x.drop k) = false) :
    ∀ n s, s.length ≤ n →
      ((x = p ∨ containsSub x s = false) →
        containsSub x (replaceL p r s) = false) ∧
      (∀ k, 0 < k → k < x.length →
        (x.drop k).isPrefixOf (replaceL p r s) = true →
        (x.drop k).isPrefixOf s = true) := by
  obtain ⟨q, qs, rfl⟩ := List.exists_cons_of_ne_nil hp
  intro n
  induction n with
  | zero =>
    intro s hs
    have hs0 : s = [] := List.length_eq_zero.mp (Nat.le_zero.mp hs)
    subst hs0
    rw [replaceL_nil]
    refine ⟨fun _ => ?_, fun k hk0 hkx hpre => hpre⟩
    rw [containsSub, isPrefixOf_nil_of_ne_nil x hx]
  | succ n ih =>
    intro s hs
    match s with
    | [] =>
      rw [replaceL_nil]
      refine ⟨fun _ => ?_, fun k hk0 hkx hpre => hpre⟩
      rw [containsSub, isPrefixOf_nil_of_ne_nil x hx]
    | c :: cs =>
      have hcs : cs.length ≤ n := by
        simp only [List.length_cons] at hs
        omega
      rw [replaceL_cons]
      by_cases hm : (q :: qs).isPrefixOf (c :: cs) = true
      · rw [if_pos hm]
        have hs' : (cs.drop qs.length).length ≤ n := by
          simp only [List.length_drop]
          omega
        obtain ⟨ih1, ih2⟩ := ih (cs.drop qs.length) hs'
        have hpremdrop : (x = q :: qs ∨ containsSub x (c :: cs) = false) →
            (x = q :: qs ∨ containsSub x (cs.drop qs.length) = false) := by
          rintro (h | h)
          · exact Or.inl h
          · right
            cases hcc : containsSub x (cs.drop qs.length) with
            | false => rfl
            | true =>
              have hup : containsSub x (c :: cs) = true := by
                have hdd : (c :: cs).drop (qs.length + 1) = cs.drop qs.length := by
                  rw [List.drop_succ_cons]
                exact containsSub_of_drop x (c :: cs) (qs.length + 1)
                  (by rwa [hdd])
              rw [h] at hup
              exact Bool.noConfusion hup
        constructor
        · intro hprem
          cases hocc : containsSub x
              (r ++ replaceL (q :: qs) r (cs.drop qs.length)) with
          | false => rfl
          | true =>
            exfalso
            rw [containsSub_iff] at hocc
            obtain ⟨i, hi⟩ := hocc
            by_cases hir : i < r.length
            · rw [List.drop_append_of_le_length (Nat.le_of_lt hir)] at hi
              by_cases hlen : x.length ≤ (r.drop i).length
              · have hxpre : x <+: r.drop i := prefix_of_prefix_append_le hi hlen
                have hcr : containsSub x r = true :=
                  (containsSub_iff x r).mpr ⟨i, hxpre⟩
                rw [hxr] at hcr
                exact Bool.noConfusion hcr
              · push_neg at hlen
                have hpr : r.drop i <+: x :=
                  List.prefix_of_prefix_length_le (List.prefix_append _ _) hi
                    (Nat.le_of_lt hlen)
                have := isPrefixOf_iff.mpr hpr
                rw [hsufr i hir] at this
                exact Bool.noConfusion this
            · push_neg at hir
              rw [List.drop_append_eq_append_drop,
                List.drop_eq_nil_of_le hir, List.nil_append] at hi
              have hR : containsSub x
                  (replaceL (q :: qs) r (cs.drop qs.length)) = true :=
                (containsSub_iff _ _).mpr ⟨i - r.length, hi⟩
              rw [ih1 (hpremdrop hprem)] at hR
              exact Bool.noConfusion hR
        · intro k hk0 hkx hpre2
          exfalso
          rw [isPrefixOf_iff] at hpre2
          by_cases hlen : (x.drop k).length ≤ r.length
          · have h1 : x.drop k <+: r := prefix_of_prefix_append_le hpre2 hlen
            have := isPrefixOf_iff.mpr h1
            rw [hsufx k hkx hk0] at this
            exact Bool.noConfusion this
          · push_neg at hlen
            have h1 : r <+: x.drop k :=
              List.prefix_of_prefix_length_le (List.prefix_append _ _) hpre2
                (Nat.le_of_lt hlen)
            have := isPrefixOf_iff.mpr h1
            rw [hrx k hkx hk0] at this
            exact Bool.noConfusion this
      · rw [if_neg hm]
        obtain ⟨ih1, ih2⟩ := ih cs hcs
        have hcs_prem : (x = q :: qs ∨ containsSub x (c :: cs) = false) →
            (x = q :: qs ∨ containsSub x cs = false) := by
          rintro (h | h)
          · exact Or.inl h
          · right
            rw [containsSub, Bool.or_eq_false_iff] at h
            exact h.2
        constructor
        · intro hprem
          rw [containsSub]
          rw [ih1 (hcs_prem hprem), Bool.or_false]
          cases hxp : x.isPrefixOf (c :: replaceL (q :: qs) r cs) with
          | false => rfl
          | true =>
            exfalso
            rw [isPrefixOf_iff] at hxp
            obtain ⟨cx, xt, hxe⟩ := List.exists_cons_of_ne_nil hx
            rw [hxe, List.cons_prefix_cons] at hxp
            obtain ⟨hcx, hxt⟩ := hxp
            have hxcs : x <+: c :: cs := by
              rw [hxe, List.cons_prefix_cons]
              refine ⟨hcx, ?_⟩
              by_cases hxt0 : xt = []
              · rw [hxt0]
                exact List.nil_prefix
              · have hxlen : 1 < x.length := by
                  rw [hxe]
                  cases xt with
                  | nil => exact absurd rfl hxt0
                  | cons d ds => simp
                have hxt1 : (x.drop 1).isPrefixOf
                    (replaceL (q :: qs) r cs) = true := by
                  rw [hxe]
                  simp only [List.drop_succ_cons, List.drop_zero]
                  exact isPrefixOf_iff.mpr hxt
                have h2 := ih2 1 (by omega) hxlen hxt1
                rw [hxe] at h2
                simp only [List.drop_succ_cons, List.drop_zero] at h2
                exact isPrefixOf_iff.mp h2
            rcases hprem with h | h
            · apply hm
              rw [← h, isPrefixOf_iff]
              exact hxcs
            · rw [containsSub, Bool.or_eq_false_iff] at h
              have hb := isPrefixOf_iff.mpr hxcs
              rw [h.1] at hb
              exact Bool.noConfusion hb
        · intro k hk0 hkx hpre2
          rw [List.drop_eq_getElem_cons hkx] at hpre2 ⊢
          rw [isPrefixOf_iff] at hpre2 ⊢
          rw [List.cons_prefix_cons] at hpre2 ⊢
          obtain ⟨hc, htail⟩ := hpre2
          refine ⟨hc, ?_⟩
          by_cases hk1 : k + 1 < x.length
          · have := ih2 (k + 1) (by omega) hk1
              (isPrefixOf_iff.mpr htail)
            exact isPrefixOf_iff.mp this
          · have hnil : x.drop (k + 1) = [] :=
              List.drop_eq_nil_of_le (by omega)
            rw [hnil]
            exact List.nil_prefix

/-- After `s.replace(p, r)` no occurrence of `p` remains, under the junction
side conditions. -/
theorem replace_self_clean (p r : List Char) (hp : p ≠ [])
    (hxr : containsSub p r = false)
    (hsufr : ∀ i, i < r.length → (r.drop i).isPrefixOf p = false)
    (hsufx : ∀ k, k < p.length → 0 < k → (p.drop k).isPrefixOf r = false)
    (hrx : ∀ k, k < p.length → 0 < k → r.isPrefixOf (p.drop k) = false)
    (s : List Char) :
    containsSub p (replaceL p r s) = false :=
  (replace_master p r p hp hp hxr hsufr hsufx hrx s.length s le_rfl).1
    (Or.inl rfl)

/-- `s.replace(p, r)` introduces no occurrence of a phrase `x` absent from
`s`, under the junction side conditions. -/
theorem replace_preserves_clean (p r x : List Char) (hp : p ≠ [])
    (hx : x ≠ []) (hxr : containsSub x r = false)
    (hsufr : ∀ i, i < r.length → (r.drop i).isPrefixOf x = false)
    (hsufx : ∀ k, k < x.length → 0 < k → (x.drop k).isPrefixOf r = false)
    (hrx : ∀ k, k < x.length → 0 < k → r.isPrefixOf (x.drop k) = false)
    (s : List Char) (hs : containsSub x s = false) :
    containsSub x (replaceL p r s) = false :=
  (replace_master p r x hp hx hxr hsufr hsufx hrx s.length s le_rfl).1
    (Or.inr hs)

set_option maxRecDepth 8000 in
/-- C6: for every feedback string, the sanitized feedback contains none of
the phrases `"ignore all previous"`, `"ignore previous"`, `"disregard"`, and
the string handed onward to the optimizer is exactly the fixed safety prefix
followed by the sanitized feedback. -/
theorem sanitize_feedback_clean (feedback : String) :
    pyIn "ignore all previous" (sanitizeFeedback feedback) = false ∧
    pyIn "ignore previous" (sanitizeFeedback feedback) = false ∧
    pyIn "disregard" (sanitizeFeedback feedback) = false ∧
    safeFeedback feedback =
      "Email assistant behavior update request: " ++
        sanitizeFeedback feedback := by
  have hdata : (sanitizeFeedback feedback).data =
      replaceL ("disregard".data) ("consider".data)
        (replaceL ("ignore previous".data) ("consider previous".data)
          (replaceL ("ignore all previous".data) ("consider previous".data)
            feedback.data)) := rfl
  refine ⟨?_, ?_, ?_, rfl⟩
  · show containsSub "ignore all previous".data
      (sanitizeFeedback feedback).data = false
    rw [hdata]
    apply replace_preserves_clean _ _ _ (by decide) (by decide) (by decide)
      (by decide) (by decide) (by decide)
    apply replace_preserves_clean _ _ _ (by decide) (by decide) (by decide)
      (by decide) (by decide) (by decide)
    exact replace_self_clean _ _ (by decide) (by decide) (by decide)
      (by decide) (by decide) _
  · show containsSub "ignore previous".data
      (sanitizeFeedback feedback).data = false
    rw [hdata]
    apply replace_preserves_clean _ _ _ (by decide) (by decide) (by decide)
      (by decide) (by decide) (by decide)
    exact replace_self_clean _ _ (by decide) (by decide) (by decide)
      (by decide) (by decide) _
  · show containsSub "disregard".data
      (sanitizeFeedback feedback).data = false
    rw [hdata]
    exact replace_self_clean _ _ (by decide) (by decide) (by decide)
      (by decide) (by decide) _

end EmailAssistant
